import Mathlib

/-!
# Inventory handlers of `demo.go`

A shallow embedding of the four request handlers of `src/demo.go`
(`getItem`, `createItem`, `updateItem`, `deleteItem`) together with the
package-level `inventory` map, and the properties of the handlers that the
specification states.

Modelling decisions.

* `inventory` (`map[int]Item`) is a finite map in Go; here it is the function
  `Int → Option Item` it denotes (`none` for an absent key).  The global
  variable becomes explicit state: a handler takes the inventory and returns
  the inventory it leaves behind.
* `float64` prices: a JSON body only ever decodes to a finite `float64`, and
  the handlers never compute with a price (it is compared with zero by the
  validator and stored).  A price is modelled by the rational number it
  denotes; negative zero is identified with zero, as Go's `==` does.
* `gin.Context` is reduced to what the handlers read from it: the path
  parameter `c.Param("itemId")` and the request body as the JSON decoder sees
  it (`Body`).
* `strconv.Atoi`, `c.ShouldBindJSON` and `validate.Struct` are library calls;
  they are modelled after the behaviour of the libraries (64-bit `int`).
-/

namespace Demo

/-! ## Data model -/

/-- Item represents an item in the inventory (`type Item struct`). -/
structure Item where
  Name : String
  Price : ℚ
  Description : String
  deriving DecidableEq

/-- The zero value of `Item`, what `var item Item` declares. -/
def Item.zero : Item := { Name := "", Price := 0, Description := "" }

/-- In-memory data store: `var inventory = make(map[int]Item)`. -/
abbrev Inventory := Int → Option Item

/-- The inventory at process start, `make(map[int]Item)`. -/
def Inventory.empty : Inventory := fun _ => none

/-- What `c.JSON` is given as its second argument: a plain string or an `Item`. -/
inductive Payload where
  | text (s : String)
  | item (i : Item)
  deriving DecidableEq

/-- The response written by `c.JSON(status, obj)`. -/
structure Response where
  status : Nat
  body : Payload
  deriving DecidableEq

def StatusOK : Nat := 200
def StatusBadRequest : Nat := 400
def StatusNotFound : Nat := 404

/-- The request body as `encoding/json` sees it when decoding into an `Item`:
either the decoder reports an error (not JSON, wrong shape or wrong field
types, empty body), or it finds for each of the three fields a value or none
(key missing or `null`). -/
inductive Body where
  | malformed
  | object (name : Option String) (price : Option ℚ) (description : Option String)
  deriving DecidableEq

/-- The part of `*gin.Context` the handlers read. -/
structure Context where
  /-- The value of `c.Param("itemId")`. -/
  itemId : String
  body : Body
  deriving DecidableEq

/-- The state after a handler has run: the response and the inventory. -/
structure Outcome where
  response : Response
  inventory : Inventory

/-! ## Library calls -/

/-- Size in bits of Go's `int` (`strconv.IntSize` on a 64-bit platform). -/
def intSize : Nat := 64

/-- The digit loop of `strconv.ParseUint` in base 10: accumulate the value,
fail on the first character that is not a decimal digit.  (Go indexes bytes;
every byte of a non-ASCII character is outside `'0'..'9'`, as is the
character itself here.) -/
def parseDigits : List Char → Nat → Option Nat
  | [], n => some n
  | ch :: rest, n =>
    if ch.isDigit then parseDigits rest (n * 10 + (ch.toNat - '0'.toNat)) else none

/-- Base-10 `strconv.ParseInt(s, 10, 0)`: an optional sign, at least one
digit, only digits, and the value within the range of `int`. `none` stands
for a non-nil error. -/
def ParseInt (s : List Char) : Option Int :=
  match s with
  | [] => none
  | c :: rest =>
    let neg : Bool := c = '-'
    let digits := if c = '+' ∨ c = '-' then rest else s
    match digits with
    | [] => none
    | _ =>
      match parseDigits digits 0 with
      | none => none
      | some un =>
        let cutoff : Nat := 2 ^ (intSize - 1)
        if ¬ neg ∧ un ≥ cutoff then none
        else if neg ∧ un > cutoff then none
        else some (if neg then -(un : Int) else (un : Int))

/-- The call `strconv.Atoi(s)`: `some n` when `err == nil`. -/
def Atoi (s : String) : Option Int := ParseInt s.toList

/-- The call `c.ShouldBindJSON(&item)`: `none` when it returns an error,
otherwise the item after decoding.  Decoding writes the fields that the body
carries and leaves the others of `item` as they were. -/
def ShouldBindJSON (c : Context) (item : Item) : Option Item :=
  match c.body with
  | .malformed => none
  | .object name price description =>
    some { Name := name.getD item.Name
           Price := price.getD item.Price
           Description := description.getD item.Description }

/-- The call `validate.Struct(item)` for the tags of `Item`
(`validate:"required"` on `Name` and `Price`, none on `Description`):
`true` when it returns no error.  `required` fails on the zero value of the
field's type. -/
def validate.Struct (item : Item) : Bool :=
  decide (item.Name ≠ "") && decide (item.Price ≠ 0)

/-! ## Handlers -/

/-- Handler `getItem` (GET `/get-item/:itemId`). -/
def getItem (c : Context) (inventory : Inventory) : Outcome :=
  match Atoi c.itemId with
  | none => ⟨⟨StatusBadRequest, .text "Invalid item ID"⟩, inventory⟩
  | some itemId =>
    if itemId < 0 then ⟨⟨StatusBadRequest, .text "Invalid item ID"⟩, inventory⟩
    else
      match inventory itemId with
      | none => ⟨⟨StatusNotFound, .text "Item ID not found"⟩, inventory⟩
      | some item => ⟨⟨StatusOK, .item item⟩, inventory⟩

/-- Handler `createItem` (POST `/create-item/:itemId`). -/
def createItem (c : Context) (inventory : Inventory) : Outcome :=
  match Atoi c.itemId with
  | none => ⟨⟨StatusBadRequest, .text "Invalid item ID"⟩, inventory⟩
  | some itemId =>
    if itemId < 0 then ⟨⟨StatusBadRequest, .text "Invalid item ID"⟩, inventory⟩
    else if (inventory itemId).isSome then
      ⟨⟨StatusBadRequest, .text "Item ID already exists"⟩, inventory⟩
    else
      match ShouldBindJSON c Item.zero with
      | none => ⟨⟨StatusBadRequest, .text "Invalid JSON"⟩, inventory⟩
      | some item =>
        if ¬ validate.Struct item then
          ⟨⟨StatusBadRequest, .text "Validation error"⟩, inventory⟩
        else
          ⟨⟨StatusOK, .item item⟩, Function.update inventory itemId (some item)⟩

/-- Handler `updateItem` (PUT `/update-item/:itemId`). -/
def updateItem (c : Context) (inventory : Inventory) : Outcome :=
  match Atoi c.itemId with
  | none => ⟨⟨StatusBadRequest, .text "Invalid item ID"⟩, inventory⟩
  | some itemId =>
    if itemId < 0 then ⟨⟨StatusBadRequest, .text "Invalid item ID"⟩, inventory⟩
    else if ¬ (inventory itemId).isSome then
      ⟨⟨StatusNotFound, .text "Item ID does not exist"⟩, inventory⟩
    else
      match ShouldBindJSON c Item.zero with
      | none => ⟨⟨StatusBadRequest, .text "Invalid JSON"⟩, inventory⟩
      | some item =>
        if ¬ validate.Struct item then
          ⟨⟨StatusBadRequest, .text "Validation error"⟩, inventory⟩
        else
          ⟨⟨StatusOK, .item item⟩, Function.update inventory itemId (some item)⟩

/-- Handler `deleteItem` (DELETE `/delete-item/:itemId`). -/
def deleteItem (c : Context) (inventory : Inventory) : Outcome :=
  match Atoi c.itemId with
  | none => ⟨⟨StatusBadRequest, .text "Invalid item ID"⟩, inventory⟩
  | some itemId =>
    if itemId < 0 then ⟨⟨StatusBadRequest, .text "Invalid item ID"⟩, inventory⟩
    else if ¬ (inventory itemId).isSome then
      ⟨⟨StatusNotFound, .text "Item ID does not exist"⟩, inventory⟩
    else
      ⟨⟨StatusOK, .text "Item deleted"⟩, Function.update inventory itemId none⟩

/-- The routes registered in `main` (the Swagger route apart). -/
inductive Route where
  | getItem
  | createItem
  | updateItem
  | deleteItem
  deriving DecidableEq

/-- Dispatch of a request to its handler, as the router set up in `main` does. -/
def Route.handle : Route → Context → Inventory → Outcome
  | .getItem => Demo.getItem
  | .createItem => Demo.createItem
  | .updateItem => Demo.updateItem
  | .deleteItem => Demo.deleteItem

/-- The JSON body that carries every field of `i` (what a client sends for the
item `i`; an empty description may be left out, as `omitempty` does). -/
def Body.ofItem (i : Item) : Body :=
  .object (some i.Name) (some i.Price) (if i.Description = "" then none else some i.Description)

/-- The guard `err != nil || itemId < 0` that opens every handler: `true` when
the path parameter does not parse or parses to a negative number. -/
def invalidId (p : String) : Bool :=
  match Atoi p with
  | none => true
  | some itemId => decide (itemId < 0)

/-! ## Sequences of requests -/

/-- A request as the router of `main` sees it: the route it matches and the
context handed to the handler. -/
structure Request where
  route : Route
  ctx : Context
  deriving DecidableEq

/-- Serve one request against the inventory. -/
def Request.serve (req : Request) (inventory : Inventory) : Outcome :=
  req.route.handle req.ctx inventory

/-- The inventory after the requests have been served one after the other. -/
def serveAll : List Request → Inventory → Inventory
  | [], inventory => inventory
  | req :: rest, inventory => serveAll rest (req.serve inventory).inventory

/-- The requests served one after the other, each with the response it got. -/
def history : List Request → Inventory → List (Request × Response)
  | [], _ => []
  | req :: rest, inventory =>
    (req, (req.serve inventory).response) :: history rest (req.serve inventory).inventory

/-- The entry of a history is a request on `route` whose path parameter parses
to `k` and that was answered with status 200. -/
def succeededOn (route : Route) (k : Int) (e : Request × Response) : Bool :=
  decide (e.1.route = route) && decide (Atoi e.1.ctx.itemId = some k) &&
    decide (e.2.status = 200)

/-- Every key of the inventory is non-negative and every stored item has a
non-empty name and a non-zero price. -/
def ValidStore (inventory : Inventory) : Prop :=
  ∀ (k : Int) (item : Item), inventory k = some item →
    0 ≤ k ∧ item.Name ≠ "" ∧ item.Price ≠ 0

/-- The state machine of one key `k` run over a history: `true` for Present,
`false` for Absent.  A successful `createItem` on `k` leads to Present, a
successful `deleteItem` on `k` to Absent, every other entry keeps the state. -/
def presenceAfter (k : Int) : List (Request × Response) → Bool → Bool
  | [], present => present
  | e :: es, present =>
    presenceAfter k es
      (if succeededOn .createItem k e then true
       else if succeededOn .deleteItem k e then false
       else present)

/-- A non-empty list of decimal digits. -/
def isDecimal (ds : List Char) : Bool :=
  !ds.isEmpty && ds.all Char.isDigit

/-- The number that a list of decimal digits denotes in base 10. -/
def decimalValue (ds : List Char) : Nat :=
  ds.foldl (fun a ch => a * 10 + (ch.toNat - '0'.toNat)) 0

/-! ## The handlers below the identifier check

Each handler starts with the same guard on the path parameter.  These lemmas
give the handler's result on either side of the guard. -/

theorem getItem_of_id {c : Context} {id : Int} (inventory : Inventory)
    (h : Atoi c.itemId = some id) (hid : 0 ≤ id) :
    getItem c inventory =
      match inventory id with
      | none => ⟨⟨StatusNotFound, .text "Item ID not found"⟩, inventory⟩
      | some item => ⟨⟨StatusOK, .item item⟩, inventory⟩ := by
  simp [getItem, h, not_lt.mpr hid]

theorem createItem_of_id {c : Context} {id : Int} (inventory : Inventory)
    (h : Atoi c.itemId = some id) (hid : 0 ≤ id) :
    createItem c inventory =
      if (inventory id).isSome then
        ⟨⟨StatusBadRequest, .text "Item ID already exists"⟩, inventory⟩
      else
        match ShouldBindJSON c Item.zero with
        | none => ⟨⟨StatusBadRequest, .text "Invalid JSON"⟩, inventory⟩
        | some item =>
          if ¬ validate.Struct item then
            ⟨⟨StatusBadRequest, .text "Validation error"⟩, inventory⟩
          else
            ⟨⟨StatusOK, .item item⟩, Function.update inventory id (some item)⟩ := by
  simp [createItem, h, not_lt.mpr hid]

theorem updateItem_of_id {c : Context} {id : Int} (inventory : Inventory)
    (h : Atoi c.itemId = some id) (hid : 0 ≤ id) :
    updateItem c inventory =
      if ¬ (inventory id).isSome then
        ⟨⟨StatusNotFound, .text "Item ID does not exist"⟩, inventory⟩
      else
        match ShouldBindJSON c Item.zero with
        | none => ⟨⟨StatusBadRequest, .text "Invalid JSON"⟩, inventory⟩
        | some item =>
          if ¬ validate.Struct item then
            ⟨⟨StatusBadRequest, .text "Validation error"⟩, inventory⟩
          else
            ⟨⟨StatusOK, .item item⟩, Function.update inventory id (some item)⟩ := by
  simp [updateItem, h, not_lt.mpr hid]

theorem deleteItem_of_id {c : Context} {id : Int} (inventory : Inventory)
    (h : Atoi c.itemId = some id) (hid : 0 ≤ id) :
    deleteItem c inventory =
      if ¬ (inventory id).isSome then
        ⟨⟨StatusNotFound, .text "Item ID does not exist"⟩, inventory⟩
      else
        ⟨⟨StatusOK, .text "Item deleted"⟩, Function.update inventory id none⟩ := by
  simp [deleteItem, h, not_lt.mpr hid]

theorem invalidId_eq_false_iff (p : String) :
    invalidId p = false ↔ ∃ id, Atoi p = some id ∧ 0 ≤ id := by
  unfold invalidId
  cases h : Atoi p with
  | none => simp
  | some n => simp

theorem handle_of_invalidId (r : Route) (c : Context) (inventory : Inventory)
    (h : invalidId c.itemId = true) :
    r.handle c inventory = ⟨⟨StatusBadRequest, .text "Invalid item ID"⟩, inventory⟩ := by
  unfold invalidId at h
  cases hp : Atoi c.itemId with
  | none =>
    cases r <;> simp [Route.handle, getItem, createItem, updateItem, deleteItem, hp]
  | some n =>
    rw [hp] at h
    have hn : n < 0 := by simpa using h
    cases r <;> simp [Route.handle, getItem, createItem, updateItem, deleteItem, hp, hn]

/-! ## `strconv.Atoi` on decimal numerals -/

theorem parseDigits_append (xs ys : List Char) (a : Nat) :
    parseDigits (xs ++ ys) a = (parseDigits xs a).bind (parseDigits ys) := by
  induction xs generalizing a with
  | nil => simp [parseDigits]
  | cons x xs ih =>
    by_cases hx : x.isDigit = true <;> simp [parseDigits, hx, ih]

theorem parseDigits_digitChar (d a : Nat) (hd : d < 10) :
    parseDigits [Nat.digitChar d] a = some (a * 10 + d) := by
  interval_cases d <;> simp [parseDigits, Nat.digitChar, Char.isDigit, Char.toNat] <;> rfl

theorem toDigitsCore_parse (f : Nat) : ∀ (n : Nat) (tl : List Char), n < f →
    ∃ ds, Nat.toDigitsCore 10 f n tl = ds ++ tl ∧ ds ≠ [] ∧
      ∀ a, parseDigits ds a = some (a * 10 ^ ds.length + n) := by
  induction f with
  | zero => intro n tl h; omega
  | succ f ih =>
    intro n tl h
    by_cases h0 : n / 10 = 0
    · refine ⟨[Nat.digitChar (n % 10)], ?_, by simp, ?_⟩
      · simp [Nat.toDigitsCore, h0]
      · intro a
        rw [parseDigits_digitChar _ _ (Nat.mod_lt _ (by decide))]
        have : n % 10 = n := Nat.mod_eq_of_lt (by omega)
        simp [this]
    · have hlt : n / 10 < f := by omega
      obtain ⟨ds, hds, _, hp⟩ := ih (n / 10) (Nat.digitChar (n % 10) :: tl) hlt
      refine ⟨ds ++ [Nat.digitChar (n % 10)], ?_, by simp, ?_⟩
      · simp [Nat.toDigitsCore, h0, hds]
      · intro a
        rw [parseDigits_append, hp]
        simp only [Option.some_bind, List.length_append, List.length_singleton]
        rw [parseDigits_digitChar _ _ (Nat.mod_lt _ (by decide))]
        congr 1
        rw [pow_succ]
        have := Nat.div_add_mod n 10
        nlinarith [this]

theorem Atoi_toString (n : Nat) (h : n < 2 ^ 63) : Atoi (toString n) = some (n : Int) := by
  obtain ⟨ds, hds, hne, hp⟩ := toDigitsCore_parse (n + 1) n [] (Nat.lt_succ_self n)
  have hl : (toString n).toList = ds := by
    show (Nat.repr n).toList = ds
    simp [Nat.repr, Nat.toDigits, hds, List.asString]
  unfold Atoi
  rw [hl]
  cases ds with
  | nil => exact absurd rfl hne
  | cons c rest =>
    have h0 := hp 0
    have hc : c.isDigit = true := by
      by_contra hc
      simp [parseDigits, hc] at h0
    have hplus : c ≠ '+' := by rintro rfl; simp [Char.isDigit] at hc
    have hminus : c ≠ '-' := by rintro rfl; simp [Char.isDigit] at hc
    simp only [ParseInt, hplus, hminus, or_self, if_false, h0]
    simp [intSize]
    omega

/-- The digit loop fails exactly on a list that holds a character other than a
decimal digit. -/
theorem parseDigits_eq_none_iff (ds : List Char) (a : Nat) :
    parseDigits ds a = none ↔ ∃ ch ∈ ds, ch.isDigit = false := by
  induction ds generalizing a with
  | nil => simp [parseDigits]
  | cons x xs ih =>
    by_cases hx : x.isDigit = true
    · simp [parseDigits, hx, ih]
    · simp [parseDigits, hx]

/-- A path parameter with a character other than a decimal digit after its
first character does not parse. -/
theorem Atoi_eq_none_of_not_digit (c x : Char) (rest : List Char) (hx : x ∈ rest)
    (hd : x.isDigit = false) : Atoi (String.mk (c :: rest)) = none := by
  have h1 : ∀ a, parseDigits rest a = none := fun a =>
    (parseDigits_eq_none_iff rest a).2 ⟨x, hx, hd⟩
  have h2 : parseDigits (c :: rest) 0 = none :=
    (parseDigits_eq_none_iff (c :: rest) 0).2 ⟨x, List.mem_cons_of_mem c hx, hd⟩
  unfold Atoi ParseInt
  by_cases hs : c = '+' ∨ c = '-'
  · cases rest with
    | nil => simp [hs]
    | cons y ys => simp [hs, h1]
  · simp [hs, h2]

/-- A minus sign followed by decimal digits that denote a number other than
zero is caught by the guard on the path parameter. -/
theorem invalidId_of_minus (ds : List Char) (m : Nat) (h : parseDigits ds 0 = some m)
    (hm : 0 < m) : invalidId (String.mk ('-' :: ds)) = true := by
  unfold invalidId Atoi ParseInt
  cases ds with
  | nil => rfl
  | cons y ys =>
    by_cases hc : m > 2 ^ (intSize - 1)
    · simp [h, hc]
    · simp [h, hc]
      omega

/-- A body that carries every field of `i` decodes to `i`. -/
theorem ShouldBindJSON_ofItem (p : String) (i : Item) :
    ShouldBindJSON ⟨p, Body.ofItem i⟩ Item.zero = some i := by
  cases i with
  | mk n pr d =>
    by_cases hd : d = "" <;> simp [ShouldBindJSON, Body.ofItem, Item.zero, hd]

theorem validate_Struct_iff (item : Item) :
    validate.Struct item = true ↔ item.Name ≠ "" ∧ item.Price ≠ 0 := by
  simp [validate.Struct]

/-! ## Properties of the handlers -/

/-- C1. Create/Get round trip: for every inventory, every identifier `id ≥ 0`
that the path parameter parses to and that is absent from the inventory, and
every valid item `i` (non-empty name, non-zero price) that the body decodes
to, `createItem` responds 200 with body `i` and leaves the inventory mapping
`id` to `i`, and a following `getItem` on `id` responds 200 with body `i`. -/
theorem createItem_getItem_roundtrip (inventory : Inventory) (c g : Context) (id : Int)
    (i : Item) (hc : Atoi c.itemId = some id) (hg : Atoi g.itemId = some id) (hid : 0 ≤ id)
    (habs : inventory id = none) (hbody : ShouldBindJSON c Item.zero = some i)
    (hname : i.Name ≠ "") (hprice : i.Price ≠ 0) :
    (createItem c inventory).response = ⟨200, .item i⟩ ∧
    (createItem c inventory).inventory id = some i ∧
    (getItem g (createItem c inventory).inventory).response = ⟨200, .item i⟩ ∧
    (getItem g (createItem c inventory).inventory).inventory = (createItem c inventory).inventory := by
  have hv : validate.Struct i = true := (validate_Struct_iff i).2 ⟨hname, hprice⟩
  have hcr : createItem c inventory =
      ⟨⟨StatusOK, .item i⟩, Function.update inventory id (some i)⟩ := by
    rw [createItem_of_id inventory hc hid]
    simp [habs, hbody, hv]
  rw [hcr, getItem_of_id _ hg hid]
  simp [StatusOK]

theorem createItem_getItem_roundtrip_witness :
    (createItem ⟨"7", .object (some "A") (some 1) (some "x")⟩ Inventory.empty).response
      = ⟨200, .item ⟨"A", 1, "x"⟩⟩ ∧
    (createItem ⟨"7", .object (some "A") (some 1) (some "x")⟩ Inventory.empty).inventory 7
      = some ⟨"A", 1, "x"⟩ ∧
    (getItem ⟨"7", .malformed⟩
      (createItem ⟨"7", .object (some "A") (some 1) (some "x")⟩ Inventory.empty).inventory).response
      = ⟨200, .item ⟨"A", 1, "x"⟩⟩ ∧
    (getItem ⟨"7", .malformed⟩
      (createItem ⟨"7", .object (some "A") (some 1) (some "x")⟩ Inventory.empty).inventory).inventory
      = (createItem ⟨"7", .object (some "A") (some 1) (some "x")⟩ Inventory.empty).inventory :=
  createItem_getItem_roundtrip Inventory.empty ⟨"7", .object (some "A") (some 1) (some "x")⟩
    ⟨"7", .malformed⟩ 7 ⟨"A", 1, "x"⟩ (by decide) (by decide) (by decide) (by decide)
    (by decide) (by decide) (by decide)

/-- C2. Create conflict: when the path parameter parses to an identifier
`id ≥ 0` that is already present, `createItem` responds 400 "Item ID already
exists" whatever the body is and leaves the inventory unchanged; and when a
first `createItem` on `id` has succeeded (status 200, body `i`), a second
`createItem` on `id` gets the conflict response and the inventory still maps
`id` to the first item `i`. -/
theorem createItem_conflict (inventory : Inventory) (c1 c2 : Context) (id : Int)
    (h1 : Atoi c1.itemId = some id) (h2 : Atoi c2.itemId = some id) (hid : 0 ≤ id) :
    (inventory id ≠ none →
      createItem c2 inventory =
        ⟨⟨400, .text "Item ID already exists"⟩, inventory⟩) ∧
    ((createItem c1 inventory).response.status = 200 →
      ∃ i, (createItem c1 inventory).response.body = .item i ∧
        (createItem c1 inventory).inventory id = some i ∧
        createItem c2 (createItem c1 inventory).inventory =
          ⟨⟨400, .text "Item ID already exists"⟩, (createItem c1 inventory).inventory⟩ ∧
        (createItem c2 (createItem c1 inventory).inventory).inventory id = some i) := by
  have key : ∀ inv : Inventory, inv id ≠ none →
      createItem c2 inv = ⟨⟨400, .text "Item ID already exists"⟩, inv⟩ := by
    intro inv hp
    rw [createItem_of_id inv h2 hid]
    have : (inv id).isSome = true := Option.isSome_iff_ne_none.mpr hp
    simp [this, StatusBadRequest]
  refine ⟨key inventory, ?_⟩
  have hE := createItem_of_id inventory h1 hid
  intro hs
  by_cases hp : (inventory id).isSome = true
  · rw [hE] at hs; simp [hp, StatusBadRequest] at hs
  · cases hb : ShouldBindJSON c1 Item.zero with
    | none => rw [hE] at hs; simp [hp, hb, StatusBadRequest] at hs
    | some i =>
      by_cases hv : validate.Struct i = true
      · have hcr : createItem c1 inventory =
            ⟨⟨StatusOK, .item i⟩, Function.update inventory id (some i)⟩ := by
          rw [hE]; simp [hp, hb, hv]
        have hst : (Function.update inventory id (some i)) id = some i := by simp
        rw [hcr]
        refine ⟨i, rfl, hst, key _ (by simp), ?_⟩
        rw [key _ (by simp)]; exact hst
      · rw [hE] at hs; simp [hp, hb, hv, StatusBadRequest] at hs

theorem createItem_conflict_witness :
    createItem ⟨"+7", .malformed⟩
        (createItem ⟨"7", .object (some "A") (some 1) none⟩ Inventory.empty).inventory =
      ⟨⟨400, .text "Item ID already exists"⟩,
        (createItem ⟨"7", .object (some "A") (some 1) none⟩ Inventory.empty).inventory⟩ ∧
    ∃ i, (createItem ⟨"7", .object (some "A") (some 1) none⟩ Inventory.empty).response.body
          = .item i ∧
      (createItem ⟨"7", .object (some "A") (some 1) none⟩ Inventory.empty).inventory 7
          = some i ∧
      createItem ⟨"+7", .malformed⟩
          (createItem ⟨"7", .object (some "A") (some 1) none⟩ Inventory.empty).inventory =
        ⟨⟨400, .text "Item ID already exists"⟩,
          (createItem ⟨"7", .object (some "A") (some 1) none⟩ Inventory.empty).inventory⟩ ∧
      (createItem ⟨"+7", .malformed⟩
          (createItem ⟨"7", .object (some "A") (some 1) none⟩ Inventory.empty).inventory).inventory 7
          = some i :=
  ⟨(createItem_conflict
      (createItem ⟨"7", .object (some "A") (some 1) none⟩ Inventory.empty).inventory
      ⟨"7", .malformed⟩ ⟨"+7", .malformed⟩ 7 (by decide) (by decide) (by decide)).1 (by decide),
   (createItem_conflict Inventory.empty ⟨"7", .object (some "A") (some 1) none⟩
      ⟨"+7", .malformed⟩ 7 (by decide) (by decide) (by decide)).2 (by decide)⟩

/-- C3. Not found: when the path parameter parses to an identifier `id ≥ 0`
that is not a key of the inventory, `getItem` responds 404 "Item ID not
found", `updateItem` and `deleteItem` respond 404 "Item ID does not exist",
whatever the body is, and each leaves the inventory unchanged. -/
theorem notFound_of_absent (inventory : Inventory) (c : Context) (id : Int)
    (h : Atoi c.itemId = some id) (hid : 0 ≤ id) (habs : inventory id = none) :
    getItem c inventory = ⟨⟨404, .text "Item ID not found"⟩, inventory⟩ ∧
    updateItem c inventory = ⟨⟨404, .text "Item ID does not exist"⟩, inventory⟩ ∧
    deleteItem c inventory = ⟨⟨404, .text "Item ID does not exist"⟩, inventory⟩ := by
  rw [getItem_of_id inventory h hid, updateItem_of_id inventory h hid,
    deleteItem_of_id inventory h hid]
  simp [habs, StatusNotFound]

theorem notFound_of_absent_witness :
    getItem ⟨"3", .malformed⟩ Inventory.empty =
      ⟨⟨404, .text "Item ID not found"⟩, Inventory.empty⟩ ∧
    updateItem ⟨"3", .malformed⟩ Inventory.empty =
      ⟨⟨404, .text "Item ID does not exist"⟩, Inventory.empty⟩ ∧
    deleteItem ⟨"3", .malformed⟩ Inventory.empty =
      ⟨⟨404, .text "Item ID does not exist"⟩, Inventory.empty⟩ :=
  notFound_of_absent Inventory.empty ⟨"3", .malformed⟩ 3 (by decide) (by decide) (by decide)

/-- C4. Update is a full replacement: when the path parameter parses to an
identifier `id ≥ 0` present in the inventory (whatever record it holds) and
the body decodes to a valid item `j`, `updateItem` responds 200 with body `j`
and the resulting inventory maps `id` to exactly `j`.  For instance, after
creating `{name: "A", price: 1, description: "x"}` at an absent `id` and
updating it with `{name: "B", price: 2}`, `getItem` returns
`{name: "B", price: 2, description: ""}`. -/
theorem updateItem_full_replacement (inventory : Inventory) (c : Context) (id : Int)
    (j : Item) (hc : Atoi c.itemId = some id) (hid : 0 ≤ id)
    (hpres : inventory id ≠ none) (hbody : ShouldBindJSON c Item.zero = some j)
    (hname : j.Name ≠ "") (hprice : j.Price ≠ 0) :
    updateItem c inventory = ⟨⟨200, .item j⟩, Function.update inventory id (some j)⟩ ∧
    (updateItem c inventory).inventory id = some j ∧
    (∀ (inv0 : Inventory) (b : Body), inv0 id = none →
      (getItem ⟨c.itemId, b⟩
        (updateItem ⟨c.itemId, .object (some "B") (some 2) none⟩
          (createItem ⟨c.itemId, .object (some "A") (some 1) (some "x")⟩
            inv0).inventory).inventory).response
        = ⟨200, .item ⟨"B", 2, ""⟩⟩) := by
  have hv : validate.Struct j = true := (validate_Struct_iff j).2 ⟨hname, hprice⟩
  have hup : updateItem c inventory =
      ⟨⟨200, .item j⟩, Function.update inventory id (some j)⟩ := by
    rw [updateItem_of_id inventory hc hid]
    have : (inventory id).isSome = true := Option.isSome_iff_ne_none.mpr hpres
    simp [this, hbody, hv, StatusOK]
  refine ⟨hup, by rw [hup]; simp, ?_⟩
  intro inv0 b h0
  have e1 : createItem ⟨c.itemId, .object (some "A") (some 1) (some "x")⟩ inv0 =
      ⟨⟨200, .item ⟨"A", 1, "x"⟩⟩, Function.update inv0 id (some ⟨"A", 1, "x"⟩)⟩ := by
    rw [createItem_of_id (c := ⟨c.itemId, .object (some "A") (some 1) (some "x")⟩) inv0 hc hid]
    simp [h0, ShouldBindJSON, Item.zero, validate.Struct, StatusOK]
  have e2 : updateItem ⟨c.itemId, .object (some "B") (some 2) none⟩
      (Function.update inv0 id (some ⟨"A", 1, "x"⟩)) =
      ⟨⟨200, .item ⟨"B", 2, ""⟩⟩,
        Function.update (Function.update inv0 id (some ⟨"A", 1, "x"⟩)) id
          (some ⟨"B", 2, ""⟩)⟩ := by
    rw [updateItem_of_id (c := ⟨c.itemId, .object (some "B") (some 2) none⟩) _ hc hid]
    simp [ShouldBindJSON, Item.zero, validate.Struct, StatusOK]
  rw [e1, e2, getItem_of_id (c := ⟨c.itemId, b⟩) _ hc hid]
  simp [StatusOK]

theorem updateItem_full_replacement_witness :
    updateItem ⟨"5", .object (some "B") (some 2) none⟩
        (Function.update Inventory.empty 5 (some ⟨"A", 1, "x"⟩)) =
      ⟨⟨200, .item ⟨"B", 2, ""⟩⟩,
        Function.update (Function.update Inventory.empty 5 (some ⟨"A", 1, "x"⟩)) 5
          (some ⟨"B", 2, ""⟩)⟩ ∧
    (updateItem ⟨"5", .object (some "B") (some 2) none⟩
        (Function.update Inventory.empty 5 (some ⟨"A", 1, "x"⟩))).inventory 5
      = some ⟨"B", 2, ""⟩ ∧
    (getItem ⟨"5", .malformed⟩
        (updateItem ⟨"5", .object (some "B") (some 2) none⟩
          (createItem ⟨"5", .object (some "A") (some 1) (some "x")⟩
            Inventory.empty).inventory).inventory).response
      = ⟨200, .item ⟨"B", 2, ""⟩⟩ :=
  have h := updateItem_full_replacement
    (Function.update Inventory.empty 5 (some ⟨"A", 1, "x"⟩))
    ⟨"5", .object (some "B") (some 2) none⟩ 5 ⟨"B", 2, ""⟩
    (by decide) (by decide) (by decide) (by decide) (by decide) (by decide)
  ⟨h.1, h.2.1, h.2.2 Inventory.empty .malformed (by decide)⟩

/-- C5. Delete after Create: when the path parameters parse to an identifier
`id ≥ 0` absent from the inventory and the body decodes to a valid item `i`,
`createItem` succeeds, then `deleteItem` on `id` responds 200 "Item deleted"
and removes `id` from the inventory, and a following `getItem` on `id`
responds 404. -/
theorem deleteItem_after_createItem (inventory : Inventory) (c d g : Context) (id : Int)
    (i : Item) (hc : Atoi c.itemId = some id) (hd : Atoi d.itemId = some id)
    (hg : Atoi g.itemId = some id) (hid : 0 ≤ id) (habs : inventory id = none)
    (hbody : ShouldBindJSON c Item.zero = some i)
    (hname : i.Name ≠ "") (hprice : i.Price ≠ 0) :
    (createItem c inventory).response.status = 200 ∧
    (deleteItem d (createItem c inventory).inventory).response
      = ⟨200, .text "Item deleted"⟩ ∧
    (deleteItem d (createItem c inventory).inventory).inventory
      = Function.update (createItem c inventory).inventory id none ∧
    (deleteItem d (createItem c inventory).inventory).inventory id = none ∧
    (getItem g (deleteItem d (createItem c inventory).inventory).inventory).response
      = ⟨404, .text "Item ID not found"⟩ := by
  have hv : validate.Struct i = true := (validate_Struct_iff i).2 ⟨hname, hprice⟩
  have hcr : createItem c inventory =
      ⟨⟨StatusOK, .item i⟩, Function.update inventory id (some i)⟩ := by
    rw [createItem_of_id inventory hc hid]
    simp [habs, hbody, hv]
  have hdel : deleteItem d (Function.update inventory id (some i)) =
      ⟨⟨StatusOK, .text "Item deleted"⟩,
        Function.update (Function.update inventory id (some i)) id none⟩ := by
    rw [deleteItem_of_id _ hd hid]
    simp
  rw [hcr, hdel, getItem_of_id _ hg hid]
  simp [StatusOK, StatusNotFound]

theorem deleteItem_after_createItem_witness :
    (createItem ⟨"9", .object (some "A") (some 1) none⟩ Inventory.empty).response.status
      = 200 ∧
    (deleteItem ⟨"9", .malformed⟩
      (createItem ⟨"9", .object (some "A") (some 1) none⟩ Inventory.empty).inventory).response
      = ⟨200, .text "Item deleted"⟩ ∧
    (deleteItem ⟨"9", .malformed⟩
      (createItem ⟨"9", .object (some "A") (some 1) none⟩ Inventory.empty).inventory).inventory
      = Function.update
          (createItem ⟨"9", .object (some "A") (some 1) none⟩ Inventory.empty).inventory
          9 none ∧
    (deleteItem ⟨"9", .malformed⟩
      (createItem ⟨"9", .object (some "A") (some 1) none⟩ Inventory.empty).inventory).inventory 9
      = none ∧
    (getItem ⟨"9", .malformed⟩
      (deleteItem ⟨"9", .malformed⟩
        (createItem ⟨"9", .object (some "A") (some 1) none⟩
          Inventory.empty).inventory).inventory).response
      = ⟨404, .text "Item ID not found"⟩ :=
  deleteItem_after_createItem Inventory.empty ⟨"9", .object (some "A") (some 1) none⟩
    ⟨"9", .malformed⟩ ⟨"9", .malformed⟩ 9 ⟨"A", 1, ""⟩ (by decide) (by decide) (by decide)
    (by decide) (by decide) (by decide) (by decide) (by decide)

/-- C6. Invalid identifiers: for each of the four handlers, every inventory
and every body, when the path parameter does not parse as an integer or
parses to a negative number, the handler responds 400 "Invalid item ID" and
returns the inventory it was given, whatever that inventory is; the path
parameters "-1", "abc", "" and "1.5" are such parameters. -/
theorem invalid_identifier (r : Route) (c : Context) (inventory : Inventory)
    (h : invalidId c.itemId = true) :
    r.handle c inventory = ⟨⟨400, .text "Invalid item ID"⟩, inventory⟩ ∧
    (∀ other : Inventory, (r.handle c other).response = (r.handle c inventory).response) ∧
    (∀ p ∈ ["-1", "abc", "", "1.5"], ∀ (b : Body) (inv : Inventory),
      r.handle ⟨p, b⟩ inv = ⟨⟨400, .text "Invalid item ID"⟩, inv⟩) := by
  refine ⟨handle_of_invalidId r c inventory h, ?_, ?_⟩
  · intro other
    rw [handle_of_invalidId r c inventory h, handle_of_invalidId r c other h]
  · intro p hp b inv
    have hbad : invalidId p = true := by
      revert p
      decide
    exact handle_of_invalidId r ⟨p, b⟩ inv hbad

theorem invalid_identifier_witness :
    Route.handle .createItem ⟨"-1", .object (some "A") (some 1) none⟩ Inventory.empty
      = ⟨⟨400, .text "Invalid item ID"⟩, Inventory.empty⟩ :=
  (invalid_identifier .createItem ⟨"-1", .object (some "A") (some 1) none⟩ Inventory.empty
    (by decide)).1

/-- C7. All-or-nothing: for every handler, inventory, path parameter and body,
when the response status is not 200 the inventory after the handler equals
the inventory before it; so a malformed body ("Invalid JSON") or a body
failing validation ("Validation error") never inserts or overwrites an
entry. -/
theorem failure_leaves_inventory (r : Route) (c : Context) (inventory : Inventory)
    (h : (r.handle c inventory).response.status ≠ 200) :
    (r.handle c inventory).inventory = inventory := by
  cases hbad : invalidId c.itemId with
  | true => rw [handle_of_invalidId r c inventory hbad]
  | false =>
    obtain ⟨id, hp, hid⟩ := (invalidId_eq_false_iff c.itemId).1 hbad
    cases r with
    | getItem =>
      simp only [Route.handle, getItem_of_id inventory hp hid]
      split <;> rfl
    | createItem =>
      simp only [Route.handle, createItem_of_id inventory hp hid] at h ⊢
      split at h
      · simp [*]
      · split at h
        · simp [*]
        · split at h
          · simp [*]
          · exact absurd rfl h
    | updateItem =>
      simp only [Route.handle, updateItem_of_id inventory hp hid] at h ⊢
      split at h
      · simp [*]
      · split at h
        · simp [*]
        · split at h
          · simp [*]
          · exact absurd rfl h
    | deleteItem =>
      simp only [Route.handle, deleteItem_of_id inventory hp hid] at h ⊢
      split at h
      · simp [*]
      · exact absurd rfl h

theorem failure_leaves_inventory_witness :
    (Route.handle .updateItem ⟨"5", .object (some "B") (some 0) none⟩
      (Function.update Inventory.empty 5 (some ⟨"A", 1, "x"⟩))).inventory
      = Function.update Inventory.empty 5 (some ⟨"A", 1, "x"⟩) :=
  failure_leaves_inventory .updateItem ⟨"5", .object (some "B") (some 0) none⟩
    (Function.update Inventory.empty 5 (some ⟨"A", 1, "x"⟩)) (by decide)

/-- C8. Payload validation rule: when the path parameter parses to an
identifier `id ≥ 0` and the body decodes to an item `i`, then for `id` absent
`createItem` responds 200 if and only if `i.Name` is non-empty and `i.Price`
is not zero, and otherwise responds 400 "Validation error"; the same holds
for `updateItem` when `id` is present.  In particular a price of 0 is
rejected, a body without description is accepted, and a negative price is
accepted. -/
theorem validation_rule (inventory : Inventory) (c : Context) (id : Int) (i : Item)
    (hc : Atoi c.itemId = some id) (hid : 0 ≤ id)
    (hbody : ShouldBindJSON c Item.zero = some i) :
    (inventory id = none →
      ((createItem c inventory).response.status = 200 ↔ (i.Name ≠ "" ∧ i.Price ≠ 0)) ∧
      (¬ (i.Name ≠ "" ∧ i.Price ≠ 0) →
        (createItem c inventory).response = ⟨400, .text "Validation error"⟩) ∧
      (∀ (name : Option String) (description : Option String),
        (createItem ⟨c.itemId, .object name (some 0) description⟩ inventory).response
          = ⟨400, .text "Validation error"⟩) ∧
      (∀ (name : String) (price : ℚ), name ≠ "" → price ≠ 0 →
        (createItem ⟨c.itemId, .object (some name) (some price) none⟩ inventory).response
          = ⟨200, .item ⟨name, price, ""⟩⟩) ∧
      (∀ (name : String) (price : ℚ) (description : Option String), name ≠ "" → price < 0 →
        (createItem ⟨c.itemId, .object (some name) (some price) description⟩
          inventory).response.status = 200)) ∧
    (inventory id ≠ none →
      ((updateItem c inventory).response.status = 200 ↔ (i.Name ≠ "" ∧ i.Price ≠ 0)) ∧
      (¬ (i.Name ≠ "" ∧ i.Price ≠ 0) →
        (updateItem c inventory).response = ⟨400, .text "Validation error"⟩)) := by
  constructor
  · intro habs
    have hE : ∀ b : Body, createItem ⟨c.itemId, b⟩ inventory =
        match ShouldBindJSON ⟨c.itemId, b⟩ Item.zero with
        | none => ⟨⟨StatusBadRequest, .text "Invalid JSON"⟩, inventory⟩
        | some item =>
          if ¬ validate.Struct item then
            ⟨⟨StatusBadRequest, .text "Validation error"⟩, inventory⟩
          else
            ⟨⟨StatusOK, .item item⟩, Function.update inventory id (some item)⟩ := by
      intro b
      rw [createItem_of_id (c := ⟨c.itemId, b⟩) inventory hc hid]
      simp [habs]
    have hE0 := hE c.body
    rw [show (⟨c.itemId, c.body⟩ : Context) = c from rfl, hbody] at hE0
    refine ⟨?_, ?_, ?_, ?_, ?_⟩
    · rw [hE0, ← validate_Struct_iff]
      by_cases hv : validate.Struct i = true <;> simp [hv, StatusOK, StatusBadRequest]
    · intro hn
      rw [← validate_Struct_iff] at hn
      rw [hE0]
      simp [hn, StatusBadRequest]
    · intro name description
      rw [hE]
      simp [ShouldBindJSON, validate.Struct, Item.zero, StatusBadRequest]
    · intro name price hn hp
      rw [hE]
      simp [ShouldBindJSON, validate.Struct, Item.zero, StatusOK, hn, hp]
    · intro name price description hn hp
      rw [hE]
      simp [ShouldBindJSON, validate.Struct, Item.zero, StatusOK, hn, ne_of_lt hp]
  · intro hpres
    have hs : (inventory id).isSome = true := Option.isSome_iff_ne_none.mpr hpres
    have hE0 : updateItem c inventory =
        if ¬ validate.Struct i then
          ⟨⟨StatusBadRequest, .text "Validation error"⟩, inventory⟩
        else
          ⟨⟨StatusOK, .item i⟩, Function.update inventory id (some i)⟩ := by
      rw [updateItem_of_id inventory hc hid]
      simp [hs, hbody]
    refine ⟨?_, ?_⟩
    · rw [hE0, ← validate_Struct_iff]
      by_cases hv : validate.Struct i = true <;> simp [hv, StatusOK, StatusBadRequest]
    · intro hn
      rw [← validate_Struct_iff] at hn
      rw [hE0]
      simp [hn, StatusBadRequest]

theorem validation_rule_witness :
    ((createItem ⟨"4", .object (some "A") (some 0) (some "free")⟩
        Inventory.empty).response.status = 200 ↔
      ((⟨"A", 0, "free"⟩ : Item).Name ≠ "" ∧ (⟨"A", 0, "free"⟩ : Item).Price ≠ 0)) ∧
    (createItem ⟨"4", .object (some "A") (some 0) (some "free")⟩ Inventory.empty).response
      = ⟨400, .text "Validation error"⟩ :=
  have h := (validation_rule Inventory.empty ⟨"4", .object (some "A") (some 0) (some "free")⟩
    4 ⟨"A", 0, "free"⟩ (by decide) (by decide) (by decide)).1 (by decide)
  ⟨h.1, h.2.1 (by decide)⟩

/-- C9. Get is a pure lookup: for every inventory and path parameter,
`getItem` leaves the inventory unchanged; it responds 200 with body `i`
exactly when the path parameter parses to an identifier `id ≥ 0` at which the
inventory holds `i`; its status is 200 exactly when that identifier is a key
of the inventory; and for a valid identifier that is absent it responds
404. -/
theorem getItem_pure_lookup (c : Context) (inventory : Inventory) :
    (getItem c inventory).inventory = inventory ∧
    (∀ i : Item, (getItem c inventory).response = ⟨200, .item i⟩ ↔
      ∃ id, Atoi c.itemId = some id ∧ 0 ≤ id ∧ inventory id = some i) ∧
    ((getItem c inventory).response.status = 200 ↔
      ∃ id, Atoi c.itemId = some id ∧ 0 ≤ id ∧ inventory id ≠ none) ∧
    (∀ id, Atoi c.itemId = some id → 0 ≤ id → inventory id = none →
      (getItem c inventory).response = ⟨404, .text "Item ID not found"⟩) := by
  cases hbad : invalidId c.itemId with
  | true =>
    have hE : getItem c inventory = _ := handle_of_invalidId .getItem c inventory hbad
    have hno : ¬ ∃ id, Atoi c.itemId = some id ∧ 0 ≤ id := by
      rw [← invalidId_eq_false_iff, hbad]; simp
    rw [hE]
    refine ⟨rfl, ?_, ?_, ?_⟩
    · intro i
      constructor
      · intro h; simp [StatusBadRequest] at h
      · rintro ⟨id, h1, h2, _⟩; exact absurd ⟨id, h1, h2⟩ hno
    · constructor
      · intro h; simp [StatusBadRequest] at h
      · rintro ⟨id, h1, h2, _⟩; exact absurd ⟨id, h1, h2⟩ hno
    · intro id h1 h2 _; exact absurd ⟨id, h1, h2⟩ hno
  | false =>
    obtain ⟨id, hp, hid⟩ := (invalidId_eq_false_iff c.itemId).1 hbad
    have huniq : ∀ k, Atoi c.itemId = some k → k = id := by
      intro k hk; rw [hp] at hk; exact (Option.some.inj hk).symm
    rw [getItem_of_id inventory hp hid]
    cases hinv : inventory id with
    | none =>
      refine ⟨rfl, ?_, ?_, ?_⟩
      · intro i
        constructor
        · intro h; simp [StatusNotFound] at h
        · rintro ⟨k, h1, _, h3⟩
          rw [huniq k h1, hinv] at h3; cases h3
      · constructor
        · intro h; simp [StatusNotFound] at h
        · rintro ⟨k, h1, _, h3⟩
          rw [huniq k h1, hinv] at h3; exact absurd rfl h3
      · intro k _ _ _; simp [StatusNotFound]
    | some item =>
      refine ⟨rfl, ?_, ?_, ?_⟩
      · intro i
        constructor
        · intro h
          have : item = i := by simpa [StatusOK] using h
          exact ⟨id, hp, hid, by rw [hinv, this]⟩
        · rintro ⟨k, h1, _, h3⟩
          rw [huniq k h1, hinv] at h3
          simp [StatusOK, Option.some.inj h3]
      · constructor
        · intro _; exact ⟨id, hp, hid, by simp [hinv]⟩
        · intro _; simp [StatusOK]
      · intro k h1 _ h3
        rw [huniq k h1, hinv] at h3; cases h3

theorem getItem_pure_lookup_witness :
    (getItem ⟨"5", .malformed⟩ (Function.update Inventory.empty 5 (some ⟨"A", 1, "x"⟩))).response
      = ⟨200, .item ⟨"A", 1, "x"⟩⟩ :=
  ((getItem_pure_lookup ⟨"5", .malformed⟩
    (Function.update Inventory.empty 5 (some ⟨"A", 1, "x"⟩))).2.1 ⟨"A", 1, "x"⟩).2
    ⟨5, by decide, by decide, by decide⟩

/-- C10. Status-code mapping: for every handler, inventory, path parameter and
body the response status is 200, 400 or 404; it is 404 exactly when the
handler is `getItem`, `updateItem` or `deleteItem` and the path parameter
parses to an identifier `id ≥ 0` absent from the inventory; `createItem`
never responds 404, and each of its failures is a 400 with one of the four
messages "Invalid item ID", "Item ID already exists", "Invalid JSON",
"Validation error". -/
theorem status_code_mapping (r : Route) (c : Context) (inventory : Inventory) :
    ((r.handle c inventory).response.status = 200 ∨
      (r.handle c inventory).response.status = 400 ∨
      (r.handle c inventory).response.status = 404) ∧
    ((r.handle c inventory).response.status = 404 ↔
      (r ≠ .createItem ∧ ∃ id, Atoi c.itemId = some id ∧ 0 ≤ id ∧ inventory id = none)) ∧
    (createItem c inventory).response.status ≠ 404 ∧
    ((createItem c inventory).response.status ≠ 200 →
      (createItem c inventory).response = ⟨400, .text "Invalid item ID"⟩ ∨
      (createItem c inventory).response = ⟨400, .text "Item ID already exists"⟩ ∨
      (createItem c inventory).response = ⟨400, .text "Invalid JSON"⟩ ∨
      (createItem c inventory).response = ⟨400, .text "Validation error"⟩) := by
  cases hbad : invalidId c.itemId with
  | true =>
    have hno : ¬ ∃ id, Atoi c.itemId = some id ∧ 0 ≤ id := by
      rw [← invalidId_eq_false_iff, hbad]; simp
    have hE : createItem c inventory = _ := handle_of_invalidId .createItem c inventory hbad
    rw [handle_of_invalidId r c inventory hbad, hE]
    refine ⟨by simp [StatusBadRequest], ?_, by simp [StatusBadRequest],
      fun _ => Or.inl rfl⟩
    constructor
    · intro h; simp [StatusBadRequest] at h
    · rintro ⟨_, id, h1, h2, _⟩; exact absurd ⟨id, h1, h2⟩ hno
  | false =>
    obtain ⟨id, hp, hid⟩ := (invalidId_eq_false_iff c.itemId).1 hbad
    have huniq : ∀ k, Atoi c.itemId = some k → k = id := by
      intro k hk; rw [hp] at hk; exact (Option.some.inj hk).symm
    have hex : (∃ k, Atoi c.itemId = some k ∧ 0 ≤ k ∧ inventory k = none) ↔
        inventory id = none := by
      constructor
      · rintro ⟨k, h1, _, h3⟩; rw [huniq k h1] at h3; exact h3
      · intro h; exact ⟨id, hp, hid, h⟩
    rw [hex]
    have hcreate : (createItem c inventory).response.status ≠ 404 ∧
        ((createItem c inventory).response.status ≠ 200 →
          (createItem c inventory).response = ⟨400, .text "Invalid item ID"⟩ ∨
          (createItem c inventory).response = ⟨400, .text "Item ID already exists"⟩ ∨
          (createItem c inventory).response = ⟨400, .text "Invalid JSON"⟩ ∨
          (createItem c inventory).response = ⟨400, .text "Validation error"⟩) ∧
        ((createItem c inventory).response.status = 200 ∨
          (createItem c inventory).response.status = 400) := by
      rw [createItem_of_id inventory hp hid]
      cases hinv : inventory id with
      | some it => simp [StatusBadRequest]
      | none =>
        cases hb : ShouldBindJSON c Item.zero with
        | none => simp [StatusBadRequest]
        | some item =>
          by_cases hv : validate.Struct item = true <;>
            simp [hv, StatusBadRequest, StatusOK]
    refine ⟨?_, ?_, hcreate.1, hcreate.2.1⟩
    · cases r with
      | getItem =>
        simp only [Route.handle, getItem_of_id inventory hp hid]
        cases inventory id <;> simp [StatusNotFound, StatusOK]
      | createItem =>
        rcases hcreate.2.2 with h | h
        · exact Or.inl h
        · exact Or.inr (Or.inl h)
      | updateItem =>
        simp only [Route.handle, updateItem_of_id inventory hp hid]
        cases hinv : inventory id with
        | none => simp [StatusNotFound]
        | some it =>
          cases hb : ShouldBindJSON c Item.zero with
          | none => simp [StatusBadRequest]
          | some item =>
            by_cases hv : validate.Struct item = true <;>
              simp [hv, StatusBadRequest, StatusOK]
      | deleteItem =>
        simp only [Route.handle, deleteItem_of_id inventory hp hid]
        cases inventory id <;> simp [StatusNotFound, StatusOK]
    · cases r with
      | getItem =>
        simp only [Route.handle, getItem_of_id inventory hp hid]
        cases inventory id <;> simp [StatusNotFound, StatusOK]
      | createItem =>
        simp only [Route.handle]
        constructor
        · intro h; exact absurd h hcreate.1
        · rintro ⟨h, _⟩; exact absurd rfl h
      | updateItem =>
        simp only [Route.handle, updateItem_of_id inventory hp hid]
        cases hinv : inventory id with
        | none => simp [StatusNotFound]
        | some it =>
          cases hb : ShouldBindJSON c Item.zero with
          | none => simp [StatusBadRequest]
          | some item =>
            by_cases hv : validate.Struct item = true <;>
              simp [hv, StatusBadRequest, StatusOK]
      | deleteItem =>
        simp only [Route.handle, deleteItem_of_id inventory hp hid]
        cases inventory id <;> simp [StatusNotFound, StatusOK]

theorem status_code_mapping_witness :
    (Route.handle .deleteItem ⟨"8", .malformed⟩ Inventory.empty).response.status = 404 :=
  (status_code_mapping .deleteItem ⟨"8", .malformed⟩ Inventory.empty).2.1.2
    ⟨by decide, 8, by decide, by decide, by decide⟩

/-! ## Frame and invariant -/

/-- Every handler leaves each key other than the one its path parameter parses
to as it was; and the whole inventory when the parameter does not parse. -/
theorem handle_frame (r : Route) (c : Context) (inventory : Inventory) (k : Int)
    (hk : Atoi c.itemId ≠ some k) : (r.handle c inventory).inventory k = inventory k := by
  cases hbad : invalidId c.itemId with
  | true => rw [handle_of_invalidId r c inventory hbad]
  | false =>
    obtain ⟨id, hp, hid⟩ := (invalidId_eq_false_iff c.itemId).1 hbad
    have hne : k ≠ id := by
      rintro rfl; exact hk hp
    cases r with
    | getItem =>
      simp only [Route.handle, getItem_of_id inventory hp hid]
      split <;> rfl
    | createItem =>
      simp only [Route.handle, createItem_of_id inventory hp hid]
      split
      · rfl
      · split
        · rfl
        · split
          · rfl
          · exact Function.update_noteq hne _ _
    | updateItem =>
      simp only [Route.handle, updateItem_of_id inventory hp hid]
      split
      · rfl
      · split
        · rfl
        · split
          · rfl
          · exact Function.update_noteq hne _ _
    | deleteItem =>
      simp only [Route.handle, deleteItem_of_id inventory hp hid]
      split
      · rfl
      · exact Function.update_noteq hne _ _

/-- The outcomes of a handler: either the status is not 200 and the inventory
is returned as it was, or the path parameter parses to an identifier
`id ≥ 0`, the status is 200 and the inventory is the one the handler's
success branch produces. -/
theorem handle_cases (r : Route) (c : Context) (inventory : Inventory) :
    ((r.handle c inventory).response.status ≠ 200 ∧
      (r.handle c inventory).inventory = inventory) ∨
    ∃ id, Atoi c.itemId = some id ∧ 0 ≤ id ∧ (r.handle c inventory).response.status = 200 ∧
      ((r = .getItem ∧ (inventory id).isSome = true ∧
          (r.handle c inventory).inventory = inventory) ∨
        (r = .createItem ∧ inventory id = none ∧ ∃ item, validate.Struct item = true ∧
          (r.handle c inventory).inventory = Function.update inventory id (some item)) ∨
        (r = .updateItem ∧ (inventory id).isSome = true ∧ ∃ item, validate.Struct item = true ∧
          (r.handle c inventory).inventory = Function.update inventory id (some item)) ∨
        (r = .deleteItem ∧ (inventory id).isSome = true ∧
          (r.handle c inventory).inventory = Function.update inventory id none)) := by
  cases hbad : invalidId c.itemId with
  | true =>
    rw [handle_of_invalidId r c inventory hbad]
    exact Or.inl ⟨by simp [StatusBadRequest], rfl⟩
  | false =>
    obtain ⟨id, hp, hid⟩ := (invalidId_eq_false_iff c.itemId).1 hbad
    cases r with
    | getItem =>
      have hE : Route.handle .getItem c inventory = _ := getItem_of_id inventory hp hid
      cases hinv : inventory id with
      | none =>
        simp only [hinv] at hE
        rw [hE]
        exact Or.inl ⟨by simp [StatusNotFound], rfl⟩
      | some it =>
        simp only [hinv] at hE
        rw [hE]
        exact Or.inr ⟨id, hp, hid, rfl, Or.inl ⟨rfl, by simp [hinv], rfl⟩⟩
    | createItem =>
      have hE : Route.handle .createItem c inventory = _ := createItem_of_id inventory hp hid
      cases hinv : inventory id with
      | some it =>
        simp only [hinv, Option.isSome_some, if_true] at hE
        rw [hE]
        exact Or.inl ⟨by simp [StatusBadRequest], rfl⟩
      | none =>
        cases hb : ShouldBindJSON c Item.zero with
        | none =>
          simp [hinv, hb] at hE
          rw [hE]
          exact Or.inl ⟨by simp [StatusBadRequest], rfl⟩
        | some item =>
          by_cases hv : validate.Struct item = true
          · simp [hinv, hb, hv] at hE
            rw [hE]
            exact Or.inr ⟨id, hp, hid, rfl, Or.inr (Or.inl ⟨rfl, hinv, item, hv, rfl⟩)⟩
          · simp [hinv, hb, hv] at hE
            rw [hE]
            exact Or.inl ⟨by simp [StatusBadRequest], rfl⟩
    | updateItem =>
      have hE : Route.handle .updateItem c inventory = _ := updateItem_of_id inventory hp hid
      cases hinv : inventory id with
      | none =>
        simp [hinv] at hE
        rw [hE]
        exact Or.inl ⟨by simp [StatusNotFound], rfl⟩
      | some it =>
        cases hb : ShouldBindJSON c Item.zero with
        | none =>
          simp [hinv, hb] at hE
          rw [hE]
          exact Or.inl ⟨by simp [StatusBadRequest], rfl⟩
        | some item =>
          by_cases hv : validate.Struct item = true
          · simp [hinv, hb, hv] at hE
            rw [hE]
            exact Or.inr ⟨id, hp, hid, rfl,
              Or.inr (Or.inr (Or.inl ⟨rfl, by simp [hinv], item, hv, rfl⟩))⟩
          · simp [hinv, hb, hv] at hE
            rw [hE]
            exact Or.inl ⟨by simp [StatusBadRequest], rfl⟩
    | deleteItem =>
      have hE : Route.handle .deleteItem c inventory = _ := deleteItem_of_id inventory hp hid
      cases hinv : inventory id with
      | none =>
        simp [hinv] at hE
        rw [hE]
        exact Or.inl ⟨by simp [StatusNotFound], rfl⟩
      | some it =>
        simp [hinv] at hE
        rw [hE]
        exact Or.inr ⟨id, hp, hid, rfl, Or.inr (Or.inr (Or.inr ⟨rfl, by simp [hinv], rfl⟩))⟩

theorem handle_preserves_ValidStore (r : Route) (c : Context) (inventory : Inventory)
    (h : ValidStore inventory) : ValidStore (r.handle c inventory).inventory := by
  rcases handle_cases r c inventory with ⟨_, hsame⟩ | ⟨id, _, hid, _, hcase⟩
  · rw [hsame]; exact h
  · rcases hcase with ⟨_, _, hE⟩ | ⟨_, _, item, hv, hE⟩ | ⟨_, _, item, hv, hE⟩ | ⟨_, _, hE⟩
    · rw [hE]; exact h
    · rw [hE]
      intro k it hk
      by_cases hki : k = id
      · rw [hki, Function.update_same] at hk
        have hit : item = it := Option.some.inj hk
        rw [hki, ← hit]
        exact ⟨hid, (validate_Struct_iff item).1 hv⟩
      · rw [Function.update_noteq hki] at hk
        exact h k it hk
    · rw [hE]
      intro k it hk
      by_cases hki : k = id
      · rw [hki, Function.update_same] at hk
        have hit : item = it := Option.some.inj hk
        rw [hki, ← hit]
        exact ⟨hid, (validate_Struct_iff item).1 hv⟩
      · rw [Function.update_noteq hki] at hk
        exact h k it hk
    · rw [hE]
      intro k it hk
      by_cases hki : k = id
      · rw [hki, Function.update_same] at hk
        cases hk
      · rw [Function.update_noteq hki] at hk
        exact h k it hk

theorem serveAll_preserves_ValidStore (reqs : List Request) :
    ∀ inventory : Inventory, ValidStore inventory → ValidStore (serveAll reqs inventory) := by
  induction reqs with
  | nil => intro inventory h; exact h
  | cons req rest ih =>
    intro inventory h
    exact ih _ (handle_preserves_ValidStore req.route req.ctx inventory h)

theorem ValidStore_empty : ValidStore Inventory.empty := by
  intro k item hk
  cases hk

/-! ## The state machine of one key -/

theorem succeededOn_iff (route : Route) (k : Int) (e : Request × Response) :
    succeededOn route k e = true ↔
      e.1.route = route ∧ Atoi e.1.ctx.itemId = some k ∧ e.2.status = 200 := by
  simp [succeededOn, and_assoc]

/-- What one request does to the presence of the key `k`. -/
theorem serve_presence (req : Request) (inventory : Inventory) (k : Int) :
    ((req.serve inventory).inventory k).isSome =
      (if succeededOn .createItem k (req, (req.serve inventory).response) then true
       else if succeededOn .deleteItem k (req, (req.serve inventory).response) then false
       else (inventory k).isSome) := by
  by_cases hk : Atoi req.ctx.itemId = some k
  · rcases handle_cases req.route req.ctx inventory with
      ⟨hst, hsame⟩ | ⟨id, hp, _, hst, hcase⟩
    · have h1 : succeededOn .createItem k (req, (req.serve inventory).response) = false := by
        rw [Bool.eq_false_iff, Ne, succeededOn_iff]
        rintro ⟨_, _, h⟩; exact hst h
      have h2 : succeededOn .deleteItem k (req, (req.serve inventory).response) = false := by
        rw [Bool.eq_false_iff, Ne, succeededOn_iff]
        rintro ⟨_, _, h⟩; exact hst h
      rw [h1, h2]
      simp only [Request.serve, hsame]
      simp
    · have hid : id = k := by
        rw [hp] at hk; exact Option.some.inj hk
      rw [hid] at hcase
      rcases hcase with ⟨hr, hpres, hE⟩ | ⟨hr, _, item, _, hE⟩ | ⟨hr, hpres, item, _, hE⟩ |
        ⟨hr, _, hE⟩
      · have h1 : succeededOn .createItem k (req, (req.serve inventory).response) = false := by
          rw [Bool.eq_false_iff, Ne, succeededOn_iff]
          rintro ⟨h, _, _⟩; rw [hr] at h; cases h
        have h2 : succeededOn .deleteItem k (req, (req.serve inventory).response) = false := by
          rw [Bool.eq_false_iff, Ne, succeededOn_iff]
          rintro ⟨h, _, _⟩; rw [hr] at h; cases h
        rw [h1, h2]
        simp only [Request.serve, hE]
        simp
      · have h1 : succeededOn .createItem k (req, (req.serve inventory).response) = true :=
          (succeededOn_iff _ _ _).2 ⟨hr, hk, hst⟩
        rw [h1]
        simp only [Request.serve, hE]
        simp
      · have h1 : succeededOn .createItem k (req, (req.serve inventory).response) = false := by
          rw [Bool.eq_false_iff, Ne, succeededOn_iff]
          rintro ⟨h, _, _⟩; rw [hr] at h; cases h
        have h2 : succeededOn .deleteItem k (req, (req.serve inventory).response) = false := by
          rw [Bool.eq_false_iff, Ne, succeededOn_iff]
          rintro ⟨h, _, _⟩; rw [hr] at h; cases h
        rw [h1, h2]
        simp only [Request.serve, hE]
        simp [hpres]
      · have h1 : succeededOn .createItem k (req, (req.serve inventory).response) = false := by
          rw [Bool.eq_false_iff, Ne, succeededOn_iff]
          rintro ⟨h, _, _⟩; rw [hr] at h; cases h
        have h2 : succeededOn .deleteItem k (req, (req.serve inventory).response) = true :=
          (succeededOn_iff _ _ _).2 ⟨hr, hk, hst⟩
        rw [h1, h2]
        simp only [Request.serve, hE]
        simp
  · have h1 : succeededOn .createItem k (req, (req.serve inventory).response) = false := by
      rw [Bool.eq_false_iff, Ne, succeededOn_iff]
      rintro ⟨_, h, _⟩; exact hk h
    have h2 : succeededOn .deleteItem k (req, (req.serve inventory).response) = false := by
      rw [Bool.eq_false_iff, Ne, succeededOn_iff]
      rintro ⟨_, h, _⟩; exact hk h
    rw [h1, h2]
    simp only [Request.serve, handle_frame req.route req.ctx inventory k hk]
    simp

/-- The presence of `k` after a sequence of requests is what the state machine
of `k` computes from the history of the sequence. -/
theorem serveAll_presence (reqs : List Request) (k : Int) :
    ∀ inventory : Inventory,
      (serveAll reqs inventory k).isSome =
        presenceAfter k (history reqs inventory) (inventory k).isSome := by
  induction reqs with
  | nil => intro inventory; rfl
  | cons req rest ih =>
    intro inventory
    simp only [serveAll, history, presenceAfter]
    rw [ih, serve_presence]

/-- The state machine ends in Present exactly when it started in Present and
no entry is a successful create or delete, or when some entry is a successful
create and no later entry is a successful create or delete. -/
theorem presenceAfter_iff (k : Int) (es : List (Request × Response)) :
    ∀ b : Bool, presenceAfter k es b = true ↔
      (b = true ∧ (∀ e ∈ es, succeededOn .createItem k e = false) ∧
        (∀ e ∈ es, succeededOn .deleteItem k e = false)) ∨
      ∃ pre e post, es = pre ++ e :: post ∧ succeededOn .createItem k e = true ∧
        (∀ x ∈ post, succeededOn .createItem k x = false) ∧
        (∀ x ∈ post, succeededOn .deleteItem k x = false) := by
  induction es with
  | nil =>
    intro b
    simp [presenceAfter]
  | cons e es ih =>
    intro b
    have hsplit : (∃ pre x post, e :: es = pre ++ x :: post ∧
          succeededOn .createItem k x = true ∧
          (∀ y ∈ post, succeededOn .createItem k y = false) ∧
          (∀ y ∈ post, succeededOn .deleteItem k y = false)) ↔
        (succeededOn .createItem k e = true ∧
          (∀ y ∈ es, succeededOn .createItem k y = false) ∧
          (∀ y ∈ es, succeededOn .deleteItem k y = false)) ∨
        ∃ pre x post, es = pre ++ x :: post ∧ succeededOn .createItem k x = true ∧
          (∀ y ∈ post, succeededOn .createItem k y = false) ∧
          (∀ y ∈ post, succeededOn .deleteItem k y = false) := by
      constructor
      · rintro ⟨pre, x, post, heq, hx, h1, h2⟩
        cases pre with
        | nil =>
          simp only [List.nil_append, List.cons.injEq] at heq
          obtain ⟨rfl, rfl⟩ := heq
          exact Or.inl ⟨hx, h1, h2⟩
        | cons p pre =>
          simp only [List.cons_append, List.cons.injEq] at heq
          exact Or.inr ⟨pre, x, post, heq.2, hx, h1, h2⟩
      · rintro (⟨hx, h1, h2⟩ | ⟨pre, x, post, heq, hx, h1, h2⟩)
        · exact ⟨[], e, es, rfl, hx, h1, h2⟩
        · exact ⟨e :: pre, x, post, by rw [heq]; rfl, hx, h1, h2⟩
    rw [presenceAfter, ih, hsplit]
    simp only [List.mem_cons, forall_eq_or_imp]
    cases hc : succeededOn .createItem k e <;> cases hd : succeededOn .deleteItem k e <;>
      simp

theorem history_requests (reqs : List Request) :
    ∀ inventory : Inventory, (history reqs inventory).map Prod.fst = reqs := by
  induction reqs with
  | nil => intro inventory; rfl
  | cons req rest ih => intro inventory; simp [history, ih]

/-- A request that succeeds on `k` went through the success branch of its
handler at the identifier `k`. -/
theorem serve_of_succeededOn (route : Route) (req : Request) (inventory : Inventory) (k : Int)
    (h : succeededOn route k (req, (req.serve inventory).response) = true) :
    (route = .getItem ∧ (inventory k).isSome = true ∧
        (req.serve inventory).inventory = inventory) ∨
    (route = .createItem ∧ inventory k = none ∧ ∃ item, validate.Struct item = true ∧
        (req.serve inventory).inventory = Function.update inventory k (some item)) ∨
    (route = .updateItem ∧ (inventory k).isSome = true ∧ ∃ item, validate.Struct item = true ∧
        (req.serve inventory).inventory = Function.update inventory k (some item)) ∨
    (route = .deleteItem ∧ (inventory k).isSome = true ∧
        (req.serve inventory).inventory = Function.update inventory k none) := by
  obtain ⟨hr, hk, hst⟩ := (succeededOn_iff _ _ _).1 h
  simp only at hr hk hst
  rcases handle_cases req.route req.ctx inventory with ⟨hne, _⟩ | ⟨id, hp, _, _, hcase⟩
  · exact absurd hst hne
  · have hid : id = k := by
      rw [hp] at hk; exact Option.some.inj hk
    rw [hid] at hcase
    subst hr
    exact hcase

/-- C12. Per-key state machine: for every finite sequence of requests served in
order from the empty inventory and every key `k`, `k` is present in the
resulting inventory if and only if some `createItem` on `k` in the sequence
succeeded (status 200) and, after the last such create, no `deleteItem` on
`k` succeeded.  On any inventory, a successful create on `k` finds `k` absent
and leaves it present, a successful update finds it present and leaves it
present, a successful delete finds it present and leaves it absent, and a
request that is neither a successful create nor a successful delete on `k`
does not change the presence of `k`. -/
theorem presence_state_machine (reqs : List Request) (k : Int) :
    ((serveAll reqs Inventory.empty k).isSome = true ↔
      ∃ pre e post, history reqs Inventory.empty = pre ++ e :: post ∧
        succeededOn .createItem k e = true ∧
        (∀ x ∈ post, succeededOn .createItem k x = false) ∧
        (∀ x ∈ post, succeededOn .deleteItem k x = false)) ∧
    (history reqs Inventory.empty).map Prod.fst = reqs ∧
    (∀ (req : Request) (inventory : Inventory),
      (succeededOn .createItem k (req, (req.serve inventory).response) = true →
        inventory k = none ∧ ((req.serve inventory).inventory k).isSome = true) ∧
      (succeededOn .updateItem k (req, (req.serve inventory).response) = true →
        (inventory k).isSome = true ∧ ((req.serve inventory).inventory k).isSome = true) ∧
      (succeededOn .deleteItem k (req, (req.serve inventory).response) = true →
        (inventory k).isSome = true ∧ (req.serve inventory).inventory k = none) ∧
      (succeededOn .createItem k (req, (req.serve inventory).response) = false →
        succeededOn .deleteItem k (req, (req.serve inventory).response) = false →
        ((req.serve inventory).inventory k).isSome = (inventory k).isSome)) := by
  refine ⟨?_, history_requests reqs _, ?_⟩
  · rw [serveAll_presence, presenceAfter_iff]
    constructor
    · rintro (⟨h, _⟩ | h)
      · simp [Inventory.empty] at h
      · exact h
    · intro h; exact Or.inr h
  · intro req inventory
    refine ⟨?_, ?_, ?_, ?_⟩
    · intro h
      rcases serve_of_succeededOn _ req inventory k h with
        ⟨hr, _⟩ | ⟨_, habs, item, _, hE⟩ | ⟨hr, _⟩ | ⟨hr, _⟩
      · cases hr
      · exact ⟨habs, by rw [hE]; simp⟩
      · cases hr
      · cases hr
    · intro h
      rcases serve_of_succeededOn _ req inventory k h with
        ⟨hr, _⟩ | ⟨hr, _⟩ | ⟨_, hpres, item, _, hE⟩ | ⟨hr, _⟩
      · cases hr
      · cases hr
      · exact ⟨hpres, by rw [hE]; simp⟩
      · cases hr
    · intro h
      rcases serve_of_succeededOn _ req inventory k h with
        ⟨hr, _⟩ | ⟨hr, _⟩ | ⟨hr, _⟩ | ⟨_, hpres, hE⟩
      · cases hr
      · cases hr
      · cases hr
      · exact ⟨hpres, by rw [hE]; simp⟩
    · intro h1 h2
      rw [serve_presence, h1, h2]
      simp

theorem presence_state_machine_witness :
    (serveAll
      [⟨.createItem, ⟨"3", .object (some "A") (some 1) none⟩⟩,
       ⟨.deleteItem, ⟨"3", .malformed⟩⟩,
       ⟨.createItem, ⟨"+3", .object (some "B") (some 2) none⟩⟩,
       ⟨.deleteItem, ⟨"4", .malformed⟩⟩] Inventory.empty 3).isSome = true :=
  (presence_state_machine
    [⟨.createItem, ⟨"3", .object (some "A") (some 1) none⟩⟩,
     ⟨.deleteItem, ⟨"3", .malformed⟩⟩,
     ⟨.createItem, ⟨"+3", .object (some "B") (some 2) none⟩⟩,
     ⟨.deleteItem, ⟨"4", .malformed⟩⟩] 3).1.2
    ⟨[(⟨.createItem, ⟨"3", .object (some "A") (some 1) none⟩⟩,
        ⟨200, .item ⟨"A", 1, ""⟩⟩),
       (⟨.deleteItem, ⟨"3", .malformed⟩⟩, ⟨200, .text "Item deleted"⟩)],
      (⟨.createItem, ⟨"+3", .object (some "B") (some 2) none⟩⟩, ⟨200, .item ⟨"B", 2, ""⟩⟩),
      [(⟨.deleteItem, ⟨"4", .malformed⟩⟩, ⟨404, .text "Item ID does not exist"⟩)],
      by decide, by decide, by decide, by decide⟩

/-! ## Which path parameters are accepted -/

theorem parseDigits_eq (ds : List Char) : ∀ a : Nat,
    parseDigits ds a =
      if ds.all Char.isDigit then
        some (ds.foldl (fun a ch => a * 10 + (ch.toNat - '0'.toNat)) a)
      else none := by
  induction ds with
  | nil => intro a; simp [parseDigits]
  | cons x xs ih =>
    intro a
    by_cases hx : x.isDigit = true
    · simp [parseDigits, hx, ih]
    · simp [parseDigits, hx]

theorem parseDigits_zero (ds : List Char) :
    parseDigits ds 0 = if ds.all Char.isDigit then some (decimalValue ds) else none :=
  parseDigits_eq ds 0

/-- The result of `ParseInt` in terms of the digits after the optional sign. -/
theorem ParseInt_cons (c : Char) (rest : List Char) :
    ParseInt (c :: rest) =
      if isDecimal (if c = '+' ∨ c = '-' then rest else c :: rest) = true then
        if c = '-' then
          if decimalValue rest ≤ 2 ^ 63 then some (-(decimalValue rest : Int)) else none
        else if decimalValue (if c = '+' then rest else c :: rest) < 2 ^ 63 then
          some (decimalValue (if c = '+' then rest else c :: rest) : Int)
        else none
      else none := by
  by_cases hm : c = '-'
  · subst hm
    cases rest with
    | nil => simp [ParseInt, isDecimal]
    | cons y ys =>
      by_cases hall : (y :: ys).all Char.isDigit = true
      · have hdec : isDecimal (y :: ys) = true := by simp [isDecimal, hall]
        simp only [ParseInt, parseDigits_zero, hall, hdec, if_true, or_true]
        generalize decimalValue (y :: ys) = v
        simp [intSize]
        split_ifs <;> first | rfl | omega
      · have hdec : isDecimal (y :: ys) = false := by simp [isDecimal, hall]
        simp [ParseInt, parseDigits_zero, hall, hdec]
  · by_cases hp : c = '+'
    · subst hp
      cases rest with
      | nil => simp [ParseInt, isDecimal]
      | cons y ys =>
        by_cases hall : (y :: ys).all Char.isDigit = true
        · have hdec : isDecimal (y :: ys) = true := by simp [isDecimal, hall]
          simp only [ParseInt, parseDigits_zero, hall, hdec, if_true, true_or]
          generalize decimalValue (y :: ys) = v
          simp [intSize]
          split_ifs <;> first | rfl | omega
        · have hdec : isDecimal (y :: ys) = false := by simp [isDecimal, hall]
          simp [ParseInt, parseDigits_zero, hall, hdec]
    · by_cases hall : (c :: rest).all Char.isDigit = true
      · have hdec : isDecimal (c :: rest) = true := by simp [isDecimal, hall]
        simp only [ParseInt, parseDigits_zero, hall, hdec, hm, hp, or_self, if_false, if_true]
        generalize decimalValue (c :: rest) = v
        simp [intSize]
        split_ifs <;> first | rfl | omega
      · have hdec : isDecimal (c :: rest) = false := by simp [isDecimal, hall]
        simp [ParseInt, parseDigits_zero, hall, hdec, hm, hp]


theorem isDecimal_cons_sign (c : Char) (rest : List Char) (h : c = '+' ∨ c = '-') :
    isDecimal (c :: rest) = false := by
  rcases h with rfl | rfl <;> simp [isDecimal, Char.isDigit]

/-- The path parameters that pass the guard, and the identifier they give. -/
theorem Atoi_valid_iff (p : String) (id : Int) :
    (Atoi p = some id ∧ 0 ≤ id) ↔
      ∃ ds, isDecimal ds = true ∧ decimalValue ds < 2 ^ 63 ∧ id = (decimalValue ds : Int) ∧
        (p.toList = ds ∨ p.toList = '+' :: ds ∨
          (p.toList = '-' :: ds ∧ decimalValue ds = 0)) := by
  unfold Atoi
  generalize p.toList = l
  cases l with
  | nil =>
    constructor
    · rintro ⟨h, _⟩; simp [ParseInt] at h
    · rintro ⟨ds, hdec, _, _, h | h | ⟨h, _⟩⟩
      · rw [← h] at hdec; simp [isDecimal] at hdec
      · cases h
      · cases h
  | cons c rest =>
    rw [ParseInt_cons]
    by_cases hm : c = '-'
    · subst hm
      simp only [or_true, if_true]
      constructor
      · rintro ⟨h, hid⟩
        by_cases hdec : isDecimal rest = true
        · rw [if_pos hdec] at h
          by_cases hv : decimalValue rest ≤ 2 ^ 63
          · rw [if_pos hv] at h
            have hidv : -(decimalValue rest : Int) = id := Option.some.inj h
            have hz : decimalValue rest = 0 := by omega
            refine ⟨rest, hdec, by rw [hz]; decide, ?_, Or.inr (Or.inr ⟨rfl, hz⟩)⟩
            rw [← hidv, hz]; rfl
          · rw [if_neg hv] at h; cases h
        · rw [if_neg hdec] at h; cases h
      · rintro ⟨ds, hdec, hv, hid, h | h | ⟨h, hz⟩⟩
        · rw [← h, isDecimal_cons_sign _ _ (Or.inr rfl)] at hdec; cases hdec
        · cases h
        · have hds : rest = ds := (List.cons.inj h).2
          subst hds
          rw [if_pos hdec, if_pos (by rw [hz]; decide)]
          rw [hid, hz]
          exact ⟨rfl, le_refl _⟩
    · by_cases hp : c = '+'
      · subst hp
        simp only [true_or, if_true, hm, if_false]
        constructor
        · rintro ⟨h, _⟩
          by_cases hdec : isDecimal rest = true
          · rw [if_pos hdec] at h
            by_cases hv : decimalValue rest < 2 ^ 63
            · rw [if_pos hv] at h
              exact ⟨rest, hdec, hv, (Option.some.inj h).symm, Or.inr (Or.inl rfl)⟩
            · rw [if_neg hv] at h; cases h
          · rw [if_neg hdec] at h; cases h
        · rintro ⟨ds, hdec, hv, hid, h | h | ⟨h, _⟩⟩
          · rw [← h, isDecimal_cons_sign _ _ (Or.inl rfl)] at hdec; cases hdec
          · have hds : rest = ds := (List.cons.inj h).2
            subst hds
            rw [if_pos hdec, if_pos hv, hid]
            exact ⟨rfl, Int.natCast_nonneg _⟩
          · exact absurd (List.cons.inj h).1 (by decide)
      · simp only [hm, hp, or_self, if_false]
        constructor
        · rintro ⟨h, _⟩
          by_cases hdec : isDecimal (c :: rest) = true
          · rw [if_pos hdec] at h
            by_cases hv : decimalValue (c :: rest) < 2 ^ 63
            · rw [if_pos hv] at h
              exact ⟨c :: rest, hdec, hv, (Option.some.inj h).symm, Or.inl rfl⟩
            · rw [if_neg hv] at h; cases h
          · rw [if_neg hdec] at h; cases h
        · rintro ⟨ds, hdec, hv, hid, h | h | ⟨h, _⟩⟩
          · subst h
            rw [if_pos hdec, if_pos hv, hid]
            exact ⟨rfl, Int.natCast_nonneg _⟩
          · exact absurd (List.cons.inj h).1 hp
          · exact absurd (List.cons.inj h).1 hm

/-- A handler answers 400 "Invalid item ID" exactly when the guard on its path
parameter fires: past the guard every response is another one. -/
theorem handle_invalid_response_iff (r : Route) (c : Context) (inventory : Inventory) :
    (r.handle c inventory).response = ⟨400, .text "Invalid item ID"⟩ ↔
      invalidId c.itemId = true := by
  constructor
  · intro h
    cases hbad : invalidId c.itemId with
    | true => rfl
    | false =>
      exfalso
      obtain ⟨id, hp, hid⟩ := (invalidId_eq_false_iff c.itemId).1 hbad
      cases r with
      | getItem =>
        simp only [Route.handle, getItem_of_id inventory hp hid] at h
        cases hinv : inventory id <;> simp [hinv, StatusNotFound, StatusOK] at h
      | createItem =>
        simp only [Route.handle, createItem_of_id inventory hp hid] at h
        cases hinv : inventory id with
        | some it => simp [hinv, StatusBadRequest] at h
        | none =>
          cases hb : ShouldBindJSON c Item.zero with
          | none => simp [hinv, hb, StatusBadRequest] at h
          | some item =>
            by_cases hv : validate.Struct item = true <;>
              simp [hinv, hb, hv, StatusBadRequest, StatusOK] at h
      | updateItem =>
        simp only [Route.handle, updateItem_of_id inventory hp hid] at h
        cases hinv : inventory id with
        | none => simp [hinv, StatusNotFound] at h
        | some it =>
          cases hb : ShouldBindJSON c Item.zero with
          | none => simp [hinv, hb, StatusBadRequest] at h
          | some item =>
            by_cases hv : validate.Struct item = true <;>
              simp [hinv, hb, hv, StatusBadRequest, StatusOK] at h
      | deleteItem =>
        simp only [Route.handle, deleteItem_of_id inventory hp hid] at h
        cases hinv : inventory id <;> simp [hinv, StatusNotFound, StatusOK] at h
  · intro h
    rw [handle_of_invalidId r c inventory h]
    rfl

/-- C13. Identifier acceptance, as the code has it: a path segment passes the
identifier check if and only if it is a non-empty string of decimal digits
denoting a number below 2^63, written bare, after a plus sign, or after a
minus sign when the number is zero; the identifier is then that number.  So
every string of decimal digits denoting `n < 2^63` is accepted with key `n`
and a string of decimal digits denoting `n ≥ 2^63` is rejected.  This holds
in all four handlers: each answers 400 "Invalid item ID", with the inventory
untouched, exactly on the path segments that are not accepted, and on an
accepted segment each goes on with the identifier as the store key
(`getItem` looks it up, `createItem` and `updateItem` check and write the
entry at it, `deleteItem` checks and removes the entry at it). -/
theorem identifier_acceptance (p : String) :
    (∀ id : Int, (Atoi p = some id ∧ 0 ≤ id) ↔
      ∃ ds, isDecimal ds = true ∧ decimalValue ds < 2 ^ 63 ∧ id = (decimalValue ds : Int) ∧
        (p.toList = ds ∨ p.toList = '+' :: ds ∨
          (p.toList = '-' :: ds ∧ decimalValue ds = 0))) ∧
    (invalidId p = false ↔ ∃ id, Atoi p = some id ∧ 0 ≤ id) ∧
    (isDecimal p.toList = true → decimalValue p.toList < 2 ^ 63 →
      invalidId p = false ∧ Atoi p = some (decimalValue p.toList : Int)) ∧
    (isDecimal p.toList = true → 2 ^ 63 ≤ decimalValue p.toList → invalidId p = true) ∧
    (invalidId p = true → ∀ (r : Route) (b : Body) (inventory : Inventory),
      r.handle ⟨p, b⟩ inventory = ⟨⟨400, .text "Invalid item ID"⟩, inventory⟩) ∧
    (∀ (id : Int) (b : Body) (inventory : Inventory), Atoi p = some id → 0 ≤ id →
      (getItem ⟨p, b⟩ inventory).response =
        match inventory id with
        | none => ⟨404, .text "Item ID not found"⟩
        | some item => ⟨200, .item item⟩) ∧
    (∀ (r : Route) (b : Body) (inventory : Inventory),
      (r.handle ⟨p, b⟩ inventory).response = ⟨400, .text "Invalid item ID"⟩ ↔
        ¬ ∃ id, Atoi p = some id ∧ 0 ≤ id) ∧
    (∀ (id : Int) (b : Body) (inventory : Inventory), Atoi p = some id → 0 ≤ id →
      getItem ⟨p, b⟩ inventory =
        (match inventory id with
          | none => ⟨⟨404, .text "Item ID not found"⟩, inventory⟩
          | some item => ⟨⟨200, .item item⟩, inventory⟩) ∧
      createItem ⟨p, b⟩ inventory =
        (if (inventory id).isSome then
          ⟨⟨400, .text "Item ID already exists"⟩, inventory⟩
        else
          match ShouldBindJSON ⟨p, b⟩ Item.zero with
          | none => ⟨⟨400, .text "Invalid JSON"⟩, inventory⟩
          | some item =>
            if ¬ validate.Struct item then
              ⟨⟨400, .text "Validation error"⟩, inventory⟩
            else
              ⟨⟨200, .item item⟩, Function.update inventory id (some item)⟩) ∧
      updateItem ⟨p, b⟩ inventory =
        (if ¬ (inventory id).isSome then
          ⟨⟨404, .text "Item ID does not exist"⟩, inventory⟩
        else
          match ShouldBindJSON ⟨p, b⟩ Item.zero with
          | none => ⟨⟨400, .text "Invalid JSON"⟩, inventory⟩
          | some item =>
            if ¬ validate.Struct item then
              ⟨⟨400, .text "Validation error"⟩, inventory⟩
            else
              ⟨⟨200, .item item⟩, Function.update inventory id (some item)⟩) ∧
      deleteItem ⟨p, b⟩ inventory =
        (if ¬ (inventory id).isSome then
          ⟨⟨404, .text "Item ID does not exist"⟩, inventory⟩
        else
          ⟨⟨200, .text "Item deleted"⟩, Function.update inventory id none⟩)) := by
  have hacc : isDecimal p.toList = true → decimalValue p.toList < 2 ^ 63 →
      Atoi p = some (decimalValue p.toList : Int) ∧ (0 : Int) ≤ (decimalValue p.toList : Int) :=
    fun hdec hv =>
      (Atoi_valid_iff p _).2 ⟨p.toList, hdec, hv, rfl, Or.inl rfl⟩
  refine ⟨fun id => Atoi_valid_iff p id, invalidId_eq_false_iff p, ?_, ?_, ?_, ?_, ?_, ?_⟩
  · intro hdec hv
    exact ⟨(invalidId_eq_false_iff p).2 ⟨_, hacc hdec hv⟩, (hacc hdec hv).1⟩
  · intro hdec hv
    cases hbad : invalidId p with
    | true => rfl
    | false =>
      obtain ⟨id, hid⟩ := (invalidId_eq_false_iff p).1 hbad
      obtain ⟨ds, hds, hlt, _, h | h | ⟨h, _⟩⟩ := (Atoi_valid_iff p id).1 hid
      · rw [h] at hv; omega
      · rw [h, isDecimal_cons_sign _ _ (Or.inl rfl)] at hdec; cases hdec
      · rw [h, isDecimal_cons_sign _ _ (Or.inr rfl)] at hdec; cases hdec
  · intro hbad r b inventory
    exact handle_of_invalidId r ⟨p, b⟩ inventory hbad
  · intro id b inventory hp hid
    rw [getItem_of_id (c := ⟨p, b⟩) inventory hp hid]
    cases inventory id <;> rfl
  · intro r b inventory
    rw [handle_invalid_response_iff r ⟨p, b⟩ inventory, ← invalidId_eq_false_iff p]
    simp
  · intro id b inventory hp hid
    exact ⟨getItem_of_id (c := ⟨p, b⟩) inventory hp hid,
      createItem_of_id (c := ⟨p, b⟩) inventory hp hid,
      updateItem_of_id (c := ⟨p, b⟩) inventory hp hid,
      deleteItem_of_id (c := ⟨p, b⟩) inventory hp hid⟩

theorem identifier_acceptance_witness :
    (invalidId "42" = false ∧ Atoi "42" = some ((decimalValue "42".toList : Nat) : Int)) ∧
    deleteItem ⟨"+42", .malformed⟩ (Function.update Inventory.empty 42 (some ⟨"A", 1, "x"⟩)) =
      (if ¬ ((Function.update Inventory.empty 42 (some ⟨"A", 1, "x"⟩)) 42).isSome then
        ⟨⟨404, .text "Item ID does not exist"⟩,
          Function.update Inventory.empty 42 (some ⟨"A", 1, "x"⟩)⟩
      else
        ⟨⟨200, .text "Item deleted"⟩,
          Function.update (Function.update Inventory.empty 42 (some ⟨"A", 1, "x"⟩)) 42 none⟩) :=
  ⟨(identifier_acceptance "42").2.2.1 (by decide) (by decide),
   ((identifier_acceptance "+42").2.2.2.2.2.2.2 42 .malformed
      (Function.update Inventory.empty 42 (some ⟨"A", 1, "x"⟩)) (by decide) (by decide)).2.2.2⟩

/-- C13 as the specification words it fails on the code: "+5" is no string of
decimal digits, yet it passes the identifier check and `getItem` serves the
entry at key 5; "-0" passes as key 0; and "9223372036854775808" is a string
of decimal digits denoting 2^63, yet every handler rejects it. -/
theorem identifier_acceptance_counterexample :
    (isDecimal "+5".toList = false ∧ invalidId "+5" = false ∧
      (getItem ⟨"+5", .malformed⟩
        (Function.update Inventory.empty 5 (some ⟨"A", 1, "x"⟩))).response
        = ⟨200, .item ⟨"A", 1, "x"⟩⟩) ∧
    (isDecimal "-0".toList = false ∧ Atoi "-0" = some 0 ∧ invalidId "-0" = false) ∧
    (isDecimal "9223372036854775808".toList = true ∧
      decimalValue "9223372036854775808".toList = 2 ^ 63 ∧
      invalidId "9223372036854775808" = true ∧
      ∀ r : Route, (r.handle ⟨"9223372036854775808", .malformed⟩ Inventory.empty).response
        = ⟨400, .text "Invalid item ID"⟩) := by
  refine ⟨by decide, by decide, by decide, by decide, by decide, ?_⟩
  intro r
  cases r <;> decide

/-- C14. Reachable-store validity invariant: in the inventory reached from the
empty inventory by any finite sequence of requests to the four handlers
(arbitrary path parameters and bodies), every key is non-negative and every
stored item has a non-empty name and a non-zero price; each of the four
handlers preserves this predicate. -/
theorem reachable_store_valid (reqs : List Request) :
    ValidStore (serveAll reqs Inventory.empty) ∧
    (∀ (k : Int) (item : Item), serveAll reqs Inventory.empty k = some item →
      0 ≤ k ∧ item.Name ≠ "" ∧ item.Price ≠ 0) ∧
    (∀ (r : Route) (c : Context) (inventory : Inventory),
      ValidStore inventory → ValidStore (r.handle c inventory).inventory) :=
  ⟨serveAll_preserves_ValidStore reqs _ ValidStore_empty,
   serveAll_preserves_ValidStore reqs _ ValidStore_empty,
   handle_preserves_ValidStore⟩

theorem reachable_store_valid_witness :
    0 ≤ (3 : Int) ∧ (⟨"A", 1, ""⟩ : Item).Name ≠ "" ∧ (⟨"A", 1, ""⟩ : Item).Price ≠ 0 :=
  (reachable_store_valid
    [⟨.createItem, ⟨"3", .object (some "A") (some 1) none⟩⟩,
     ⟨.createItem, ⟨"-4", .object (some "B") (some 2) none⟩⟩,
     ⟨.updateItem, ⟨"3", .object (some "") (some 0) none⟩⟩]).2.1 3 ⟨"A", 1, ""⟩ (by decide)

/-- C15. Frame: for every handler, inventory and body, when the path parameter
parses to the identifier `id`, every key `k` other than `id` has the same
entry (the same presence and the same item) after the handler as before. -/
theorem frame_other_keys (r : Route) (c : Context) (inventory : Inventory) (id k : Int)
    (hp : Atoi c.itemId = some id) (hk : k ≠ id) :
    (r.handle c inventory).inventory k = inventory k ∧
    ((r.handle c inventory).inventory k).isSome = (inventory k).isSome := by
  have h : (r.handle c inventory).inventory k = inventory k := by
    apply handle_frame
    rw [hp]
    intro h
    exact hk (Option.some.inj h).symm
  exact ⟨h, by rw [h]⟩

theorem frame_other_keys_witness :
    (Route.handle .deleteItem ⟨"5", .malformed⟩
        (Function.update (Function.update Inventory.empty 5 (some ⟨"A", 1, "x"⟩)) 6
          (some ⟨"B", 2, ""⟩))).inventory 6
      = (Function.update (Function.update Inventory.empty 5 (some ⟨"A", 1, "x"⟩)) 6
          (some ⟨"B", 2, ""⟩)) 6 :=
  (frame_other_keys .deleteItem ⟨"5", .malformed⟩
    (Function.update (Function.update Inventory.empty 5 (some ⟨"A", 1, "x"⟩)) 6
      (some ⟨"B", 2, ""⟩)) 5 6 (by decide) (by decide)).1

end Demo
